import Mathlib

/-
Formal model of the resilient Kafka producer/consumer core of the
banking-shared-go repository.

Producer side (src/unnamed/part_000): `NewProducer` builds a sarama
configuration with idempotent delivery and a single in-flight request, and
wraps every send in a circuit breaker whose trip condition, probe quota
(MaxRequests = 3), evaluation window (Interval = 10s) and cooldown
(Timeout = 30s) are configured in `NewProducer`.  The breaker engine itself
is the gobreaker dependency, which is not part of the repository sources;
it is modelled here from the specification of the circuit breaker
(states Closed/Open/HalfOpen, rolling counters, cooldown timer, probe
quota), with the trip predicate and all numeric settings taken verbatim
from `NewProducer`.  Time is modelled as a natural number of seconds.

Consumer side (src/kafka/consumer.go): the partition claim loop
`ConsumeClaim`, offset marking (`MarkMessage`, which marks offset + 1 and
only ever moves the committed offset forward), and the supervising loop of
`Start`/`Stop`.
-/

namespace BankingKafka

/-! ## Circuit breaker model

Counters mirror gobreaker.Counts.  The source stores them as 32-bit
unsigned integers; none of the operations modelled here can overflow at
the call counts relevant to the claims, so plain naturals are used. -/

structure Counts where
  requests : Nat
  totalSuccesses : Nat
  totalFailures : Nat
  consecutiveSuccesses : Nat
  consecutiveFailures : Nat
deriving DecidableEq, Repr

def Counts.clear : Counts := ⟨0, 0, 0, 0, 0⟩

def Counts.onRequest (c : Counts) : Counts :=
  { c with requests := c.requests + 1 }

def Counts.onSuccess (c : Counts) : Counts :=
  { c with
    totalSuccesses := c.totalSuccesses + 1
    consecutiveSuccesses := c.consecutiveSuccesses + 1
    consecutiveFailures := 0 }

def Counts.onFailure (c : Counts) : Counts :=
  { c with
    totalFailures := c.totalFailures + 1
    consecutiveFailures := c.consecutiveFailures + 1
    consecutiveSuccesses := 0 }

/-- Trip predicate from `NewProducer` (src/unnamed/part_000):
`counts.Requests >= 3 && failureRatio >= 0.6` where
`failureRatio = float64(TotalFailures) / float64(Requests)`.
The comparison `TotalFailures / Requests >= 0.6` in IEEE double precision
is exactly equivalent to the rational comparison
`5 * TotalFailures >= 3 * Requests` for all 32-bit counter values: the
quotient of two such integers can never fall strictly between the double
nearest to 3/5 and 3/5 itself, so no rounding can flip the comparison. -/
def readyToTrip (c : Counts) : Bool :=
  3 ≤ c.requests && 3 * c.requests ≤ 5 * c.totalFailures

inductive BState
  | closed
  | opened
  | halfOpen
deriving DecidableEq, Repr

structure Breaker where
  state : BState
  counts : Counts
  expiry : Nat
deriving DecidableEq, Repr

/-- Probe quota in the half-open state: `MaxRequests: 3` in `NewProducer`. -/
def maxRequests : Nat := 3

/-- Closed-state counter window: `Interval: 10 * time.Second` in `NewProducer`. -/
def interval : Nat := 10

/-- Open-state cooldown: `Timeout: 30 * time.Second` in `NewProducer`. -/
def cooldown : Nat := 30

/-- Expiry installed when a new generation starts in the given state:
closed generations expire after the interval, open generations after the
cooldown, and half-open generations never expire on their own. -/
def expiryFor : BState → Nat → Nat
  | .closed, now => now + interval
  | .opened, now => now + cooldown
  | .halfOpen, _ => 0

/-- State change: clears the counters and installs the new state's expiry
(a no-op when the state is unchanged). -/
def setState (b : Breaker) (st : BState) (now : Nat) : Breaker :=
  if b.state = st then b else ⟨st, Counts.clear, expiryFor st now⟩

/-- Lazy state refresh performed at the start of every gated call: a closed
breaker whose window expired starts a fresh generation, and an open breaker
whose cooldown elapsed becomes half-open. -/
def currentState (b : Breaker) (now : Nat) : Breaker :=
  match b.state with
  | .closed =>
      if b.expiry ≠ 0 ∧ b.expiry < now then ⟨.closed, Counts.clear, expiryFor .closed now⟩
      else b
  | .opened => if b.expiry < now then setState b .halfOpen now else b
  | .halfOpen => b

/-- Success bookkeeping after a pass-through call: in the half-open state,
reaching `maxRequests` consecutive successes closes the breaker. -/
def onSuccessB (b : Breaker) (now : Nat) : Breaker :=
  match b.state with
  | .closed => { b with counts := b.counts.onSuccess }
  | .halfOpen =>
      let c := b.counts.onSuccess
      if maxRequests ≤ c.consecutiveSuccesses then setState { b with counts := c } .closed now
      else { b with counts := c }
  | .opened => b

/-- Failure bookkeeping after a pass-through call: in the closed state the
trip predicate is evaluated, and any half-open failure reopens the breaker
with a fresh cooldown. -/
def onFailureB (b : Breaker) (now : Nat) : Breaker :=
  match b.state with
  | .closed =>
      let c := b.counts.onFailure
      if readyToTrip c then setState { b with counts := c } .opened now
      else { b with counts := c }
  | .halfOpen => setState b .opened now
  | .opened => b

inductive ExecResult
  | rejectedOpen
  | rejectedTooMany
  | sentOk
  | sentFail
deriving DecidableEq, Repr

/-- One breaker-gated call.  `sendOk` is the outcome the transport would
report if it were invoked; it is only consulted in the pass-through
branches, so a rejected call never touches the transport. -/
def execute (b0 : Breaker) (now : Nat) (sendOk : Bool) : Breaker × ExecResult :=
  let b := currentState b0 now
  match b.state with
  | .opened => (b, .rejectedOpen)
  | .halfOpen =>
      if maxRequests ≤ b.counts.requests then (b, .rejectedTooMany)
      else
        let b1 : Breaker := { b with counts := b.counts.onRequest }
        if sendOk then (onSuccessB b1 now, .sentOk) else (onFailureB b1 now, .sentFail)
  | .closed =>
      let b1 : Breaker := { b with counts := b.counts.onRequest }
      if sendOk then (onSuccessB b1 now, .sentOk) else (onFailureB b1 now, .sentFail)

/-- Breaker as freshly constructed by `NewProducer` at a given time:
closed, cleared counters, window expiring one interval later. -/
def initBreaker (now : Nat) : Breaker :=
  ⟨.closed, Counts.clear, now + interval⟩

/-- Feed a list of intended transport outcomes through the breaker at a
fixed time, keeping only the final breaker. -/
def runCalls (b : Breaker) (now : Nat) : List Bool → Breaker
  | [] => b
  | o :: rest => runCalls (execute b now o).1 now rest

/-- Number of failures (false entries) in a list of intended outcomes. -/
def countFalse : List Bool → Nat
  | [] => 0
  | o :: rest => (if o then 0 else 1) + countFalse rest

/-! ## Publisher model (Publish / PublishBatch, src/unnamed/part_000)

An event is anything with a partition key and a serialization attempt;
`marshal = none` models a body `json.Marshal` cannot encode. -/

structure Event where
  key : String
  marshal : Option (List Nat)
deriving DecidableEq, Repr

inductive PubCause
  | circuitOpen
  | tooManyRequests
  | transportErr
deriving DecidableEq, Repr

/-- Errors returned by `Publish`: the marshalling error
(`failed to marshal event: ...`) or the wrapped breaker/transport error
(`failed to publish to TOPIC: CAUSE`), which carries the topic and the
underlying cause. -/
inductive PubError
  | marshalErr
  | publishFailed (topic : String) (cause : PubCause)
deriving DecidableEq, Repr

structure PublishOut where
  breaker : Breaker
  error : Option PubError
  transportInvoked : Bool
  sentKeys : List String
deriving DecidableEq, Repr

/-- Publish one event: serialize (returning immediately on failure with
the breaker untouched), then run the send through the breaker and wrap any
breaker or transport error with the topic.  `sentKeys` records the keys of
messages durably sent by this call. -/
def publish (b : Breaker) (now : Nat) (topic : String) (ev : Event) (sendOk : Bool) :
    PublishOut :=
  match ev.marshal with
  | none => ⟨b, some .marshalErr, false, []⟩
  | some _ =>
      let r := execute b now sendOk
      match r.2 with
      | .rejectedOpen => ⟨r.1, some (.publishFailed topic .circuitOpen), false, []⟩
      | .rejectedTooMany => ⟨r.1, some (.publishFailed topic .tooManyRequests), false, []⟩
      | .sentFail => ⟨r.1, some (.publishFailed topic .transportErr), true, []⟩
      | .sentOk => ⟨r.1, none, true, [ev.key]⟩

/-- PublishBatch: publish sequentially in list order, stopping at the
first failing publish and returning its error; prior sends stay sent. -/
def publishBatch (b : Breaker) (now : Nat) (topic : String) :
    List (Event × Bool) → PublishOut
  | [] => ⟨b, none, false, []⟩
  | (ev, s) :: rest =>
      let o := publish b now topic ev s
      match o.error with
      | some e => ⟨o.breaker, some e, o.transportInvoked, o.sentKeys⟩
      | none =>
          let o2 := publishBatch o.breaker now topic rest
          ⟨o2.breaker, o2.error, o.transportInvoked || o2.transportInvoked,
            o.sentKeys ++ o2.sentKeys⟩

/-! ## Consumer model (ConsumeClaim / Start / Stop, src/kafka/consumer.go) -/

/-- Message coordinates as used by the claim loop (topic, partition,
offset).  Partitions are int32 and offsets int64 in the source; no
arithmetic modelled here can overflow them. -/
structure Message where
  topic : String
  partition : Int
  offset : Int
deriving DecidableEq, Repr

/-- Committed positions, one per (topic, partition). -/
abbrev Committed := List ((String × Int) × Int)

/-- Looks up the committed position of one partition. -/
def committedOffset : Committed → String × Int → Option Int
  | [], _ => none
  | (tp2, o) :: rest, tp => if tp2 = tp then some o else committedOffset rest tp

/-- MarkOffset semantics of the offset manager backing
`session.MarkMessage`: record the position, moving it only forward. -/
def setCommitted : Committed → String × Int → Int → Committed
  | [], tp, off => [(tp, off)]
  | (tp2, o) :: rest, tp, off =>
      if tp2 = tp then (if o < off then (tp2, off) else (tp2, o)) :: rest
      else (tp2, o) :: setCommitted rest tp off

/-- MarkMessage(msg, "") marks offset + 1 as the next position to consume. -/
def markMessage (c : Committed) (m : Message) : Committed :=
  setCommitted c (m.topic, m.partition) (m.offset + 1)

/-- Per-partition claim state: committed positions plus the error-log
entries (each carrying the failed message's full coordinates). -/
structure ClaimState where
  committed : Committed
  logs : List Message
deriving DecidableEq, Repr

/-- One iteration of the claim loop body: on handler success mark the
message, on handler failure log its coordinates and leave the committed
position untouched. -/
def consumeClaimStep (handler : Message → Bool) (m : Message) (s : ClaimState) : ClaimState :=
  if handler m then { s with committed := markMessage s.committed m }
  else { s with logs := s.logs ++ [m] }

/-- The claim loop over the messages delivered before the stream ends. -/
def consumeClaimLoop (handler : Message → Bool) : List Message → ClaimState → ClaimState
  | [], s => s
  | m :: rest, s => consumeClaimLoop handler rest (consumeClaimStep handler m s)

/-- ConsumeClaim: process the delivered messages and return the final
state together with the Go return value.  `cancelAfter = none` models the
exit through the closed message stream; `cancelAfter = some k` models the
session context firing after k messages.  Both exits return nil. -/
def consumeClaim (handler : Message → Bool) (msgs : List Message)
    (cancelAfter : Option Nat) (s : ClaimState) : ClaimState × Option String :=
  match cancelAfter with
  | none => (consumeClaimLoop handler msgs s, none)
  | some k => (consumeClaimLoop handler (msgs.take k) s, none)

/-! ## Consumer group supervising loop (Start / Stop)

One `Consume` call either fails to join (returning an error without ever
calling Setup) or establishes a session (Setup runs, so the ready channel
closes, and the session later ends, possibly with an error). -/

inductive ConsumeOutcome
  | joinFailure (e : String)
  | sessionEnd (err : Option String)
deriving DecidableEq, Repr

/-- Error value carried by one `Consume` return. -/
def outcomeErr : ConsumeOutcome → Option String
  | .joinFailure e => some e
  | .sessionEnd e => e

/-- Supervising goroutine of `Start`: every `Consume` error is logged and
the loop rejoins; it returns the log and the number of join attempts
consumed from the trace. -/
def superviseLoop : List ConsumeOutcome → List String × Nat
  | [] => ([], 0)
  | o :: rest =>
      let r := superviseLoop rest
      (match outcomeErr o with
       | some e => e :: r.1
       | none => r.1, r.2 + 1)

/-- Return value of `Start` over a trace of Consume outcomes.  `Start`
blocks receiving on the ready channel that exists when it reaches the
receive — the one made in `NewConsumer` — and only `Setup` of a session
established by the first `Consume` call closes that channel: a failed
first join makes the supervising loop replace `c.ready` with a fresh
channel, so `Setup` of any later session closes the replacement and the
channel `Start` is blocked on is never closed.  Hence `Start` returns
(with nil) exactly when the first `Consume` call establishes a session;
`none` models a `Start` call that is still blocked, `some r` a `Start`
call that returned r. -/
def startReturnValue : List ConsumeOutcome → Option (Option String)
  | .sessionEnd _ :: _ => some none
  | _ => none

/-! ## Producer construction (NewProducer, src/unnamed/part_000) -/

structure ProducerConfig where
  brokers : List String
  clientID : String
  requiredAcks : Int
  retryMax : Int
  flushFrequencyMs : Nat
  flushMessages : Int
  compression : Nat
deriving DecidableEq, Repr

/-- Fields of the sarama configuration assigned by `NewProducer`. -/
structure SaramaProducerConfig where
  clientID : String
  requiredAcks : Int
  retryMax : Int
  flushFrequencyMs : Nat
  flushMessages : Int
  compression : Nat
  returnSuccesses : Bool
  returnErrors : Bool
  idempotent : Bool
  maxOpenRequests : Nat
deriving DecidableEq, Repr

/-- Sarama configuration built by `NewProducer`: copies the user
configuration and unconditionally enables idempotent delivery with
`config.Net.MaxOpenRequests = 1`. -/
def newProducerConfig (cfg : ProducerConfig) : SaramaProducerConfig :=
  { clientID := cfg.clientID
    requiredAcks := cfg.requiredAcks
    retryMax := cfg.retryMax
    flushFrequencyMs := cfg.flushFrequencyMs
    flushMessages := cfg.flushMessages
    compression := cfg.compression
    returnSuccesses := true
    returnErrors := true
    idempotent := true
    maxOpenRequests := 1 }

/-! ## Run invariant and concrete sample inputs -/

/-- Invariant of a run started on a fresh breaker at a fixed time: either
the breaker is still closed with exact request/failure tallies and the
original window, or it tripped and is open with a full cooldown. -/
def InvC (now n f : Nat) (b : Breaker) : Prop :=
  (b.state = .closed ∧ b.counts.requests = n ∧ b.counts.totalFailures = f ∧
    b.expiry = now + interval)
  ∨ (b.state = .opened ∧ b.counts = Counts.clear ∧ b.expiry = now + cooldown)

/-- Breaker tripped open at time 0 by three straight transport failures. -/
def bOpen3 : Breaker := runCalls (initBreaker 0) 0 [false, false, false]

/-- Breaker after the cooldown elapsed and two successful probes ran at
time 31: half-open with two consecutive successes. -/
def bProbe2 : Breaker := (execute (execute bOpen3 31 true).1 31 true).1

/-- Serializable sample event. -/
def evGood : Event := ⟨"user-1", some [123]⟩

/-- Sample event whose body cannot be serialized. -/
def evBad : Event := ⟨"user-2", none⟩

/-- Second serializable sample event. -/
def evGood2 : Event := ⟨"user-3", some [7]⟩

/-- Sample handler: succeeds exactly on the message at offset 1. -/
def hdl0 : Message → Bool := fun m => decide (m.offset = 1)

/-- Message the sample handler rejects. -/
def msgF : Message := ⟨"banking.users.events", 0, 5⟩

/-- Message the sample handler accepts. -/
def msgS : Message := ⟨"banking.users.events", 0, 1⟩

/-- Empty claim state. -/
def cs0 : ClaimState := ⟨[], []⟩

/-! ## Breaker lemmas -/

/-- Splitting a call sequence splits the breaker run. -/
theorem runCalls_append (b : Breaker) (now : Nat) (l1 l2 : List Bool) :
    runCalls b now (l1 ++ l2) = runCalls (runCalls b now l1) now l2 := by
  induction l1 generalizing b with
  | nil => rfl
  | cons o rest ih => simp [runCalls, ih]

/-- An open breaker whose cooldown has not elapsed rejects the call
without change, whatever the transport would have answered. -/
theorem execute_open_frozen (b : Breaker) (t : Nat) (s : Bool)
    (h1 : b.state = .opened) (h2 : ¬ b.expiry < t) :
    execute b t s = (b, .rejectedOpen) := by
  obtain ⟨st, c, e⟩ := b
  simp only at h1 h2
  subst h1
  simp [execute, currentState, h2]

/-- In the closed state with a live window, a successful call only records
the request and the success. -/
theorem execute_closed_ok (c : Counts) (e now : Nat) (h : ¬ (e ≠ 0 ∧ e < now)) :
    execute ⟨.closed, c, e⟩ now true =
      (⟨.closed, c.onRequest.onSuccess, e⟩, .sentOk) := by
  simp [execute, currentState, h, onSuccessB]

/-- In the closed state with a live window, a failed call records the
failure and trips to open exactly when the trip predicate fires. -/
theorem execute_closed_fail (c : Counts) (e now : Nat) (h : ¬ (e ≠ 0 ∧ e < now)) :
    execute ⟨.closed, c, e⟩ now false =
      (if readyToTrip c.onRequest.onFailure
       then (⟨.opened, Counts.clear, now + cooldown⟩ : Breaker)
       else ⟨.closed, c.onRequest.onFailure, e⟩, .sentFail) := by
  simp only [execute, currentState, h, if_false]
  by_cases hrt : readyToTrip c.onRequest.onFailure <;>
    simp [onFailureB, hrt, setState, expiryFor]

theorem InvC_congr {now n f n2 f2 : Nat} {b : Breaker}
    (h : InvC now n f b) (hn : n = n2) (hf : f = f2) : InvC now n2 f2 b := by
  subst hn; subst hf; exact h

theorem execute_inv {now n f : Nat} {b : Breaker} (o : Bool) (h : InvC now n f b) :
    InvC now (n + 1) (f + (if o then 0 else 1)) (execute b now o).1 := by
  rcases h with ⟨hs, hn, hf, he⟩ | ⟨hs, hc, he⟩
  · obtain ⟨st, c, e⟩ := b
    simp only at hs hn hf he
    subst hs; subst he
    have hlive : ¬ (now + interval ≠ 0 ∧ now + interval < now) := by omega
    cases o with
    | true =>
        rw [execute_closed_ok c _ now hlive]
        left
        simp [Counts.onRequest, Counts.onSuccess, hn, hf]
    | false =>
        rw [execute_closed_fail c _ now hlive]
        by_cases hrt : readyToTrip c.onRequest.onFailure
        · rw [if_pos hrt]; right; simp
        · rw [if_neg hrt]; left
          simp [Counts.onRequest, Counts.onFailure, hn, hf]
  · rw [execute_open_frozen b now o hs (by omega)]
    right; exact ⟨hs, hc, he⟩

theorem runCalls_inv {now : Nat} (l : List Bool) {n f : Nat} {b : Breaker}
    (h : InvC now n f b) :
    InvC now (n + l.length) (f + countFalse l) (runCalls b now l) := by
  induction l generalizing b n f with
  | nil => simpa [runCalls, countFalse] using h
  | cons o rest ih =>
      have h1 := execute_inv o h
      have h2 := ih h1
      refine InvC_congr h2 (by simp; omega) ?_
      simp [countFalse]; omega

theorem initBreaker_inv (now : Nat) : InvC now 0 0 (initBreaker now) := by
  left; simp [initBreaker, Counts.clear]

/-- A failure recorded when the tallies meet the trip threshold leaves the
breaker open with a full cooldown (and an already-open breaker stays so). -/
theorem trip_step {now n f : Nat} {b : Breaker} (h : InvC now n f b)
    (h3 : 2 ≤ n) (hr : 3 * (n + 1) ≤ 5 * (f + 1)) :
    (execute b now false).1 = ⟨.opened, Counts.clear, now + cooldown⟩ := by
  rcases h with ⟨hs, hn, hf, he⟩ | ⟨hs, hc, he⟩
  · obtain ⟨st, c, e⟩ := b
    simp only at hs hn hf he
    subst hs; subst he
    have hlive : ¬ (now + interval ≠ 0 ∧ now + interval < now) := by omega
    rw [execute_closed_fail c _ now hlive]
    have hrt : readyToTrip c.onRequest.onFailure = true := by
      simp [readyToTrip, Counts.onRequest, Counts.onFailure, hn, hf]
      omega
    rw [if_pos hrt]
  · obtain ⟨st, c, e⟩ := b
    simp only at hs hc he
    subst hs; subst hc; subst he
    rw [execute_open_frozen _ now false rfl (by show ¬ _ + cooldown < _; omega)]

/-! ## Claim C1 -/

/-- C1 counterexample: the sequence failure, failure, success has 3
breaker-gated calls in one evaluation window and failure ratio 2/3, which
is at least 0.6, yet the breaker stays Closed: the trip predicate is only
evaluated when a failure is recorded, and the last recorded outcome here
is a success.  This refutes the claim as stated. -/
theorem C1_ratio_met_without_final_failure_stays_closed :
    3 ≤ ([false, false, true] : List Bool).length ∧
    3 * ([false, false, true] : List Bool).length ≤ 5 * countFalse [false, false, true] ∧
    (runCalls (initBreaker 0) 0 [false, false, true]).state = .closed := by
  decide

/-- C1 (amended): for every sequence of at least 3 breaker-gated calls
within one evaluation window whose failure ratio is at least 0.6 and whose
last call records a failure, the breaker transitions to Open, and every
subsequent call until the cooldown elapses is rejected with a circuit-open
outcome without invoking the transport and without changing the breaker;
a Publish attempted then returns the wrapped circuit-open error naming the
topic.  In particular 2 successes then 3 failures trips the breaker. -/
theorem C1_trip_on_final_failure_then_fail_fast
    (now t : Nat) (s : Bool) (pre : List Bool) (topic : String) (ev : Event)
    (pl : List Nat)
    (hlen : 2 ≤ pre.length)
    (hr : 3 * (pre.length + 1) ≤ 5 * (countFalse pre + 1))
    (ht : t ≤ now + cooldown)
    (hm : ev.marshal = some pl) :
    (runCalls (initBreaker now) now (pre ++ [false])).state = .opened ∧
    (runCalls (initBreaker now) now (pre ++ [false])).expiry = now + cooldown ∧
    execute (runCalls (initBreaker now) now (pre ++ [false])) t s =
      (runCalls (initBreaker now) now (pre ++ [false]), .rejectedOpen) ∧
    (publish (runCalls (initBreaker now) now (pre ++ [false])) t topic ev s).error =
      some (.publishFailed topic .circuitOpen) ∧
    (publish (runCalls (initBreaker now) now (pre ++ [false])) t topic ev s).transportInvoked
      = false := by
  have hinv := InvC_congr (runCalls_inv pre (initBreaker_inv now))
    (Nat.zero_add _) (Nat.zero_add _)
  have hstep := trip_step hinv hlen hr
  have hbf : runCalls (initBreaker now) now (pre ++ [false]) =
      ⟨.opened, Counts.clear, now + cooldown⟩ := by
    rw [runCalls_append]
    simpa [runCalls] using hstep
  rw [hbf]
  have hff : execute (⟨.opened, Counts.clear, now + cooldown⟩ : Breaker) t s =
      (⟨.opened, Counts.clear, now + cooldown⟩, .rejectedOpen) :=
    execute_open_frozen _ t s rfl (by show ¬ now + cooldown < t; omega)
  refine ⟨rfl, rfl, hff, ?_, ?_⟩ <;> simp [publish, hm, hff]

/-- C1 witness: the spec scenario, 2 successes then 3 failures at time 0,
trips the breaker; a publish at time 29 (cooldown not yet elapsed) returns
the wrapped circuit-open error. -/
theorem C1_trip_on_final_failure_then_fail_fast_witness :
    2 ≤ ([true, true, false, false] : List Bool).length ∧
    3 * (([true, true, false, false] : List Bool).length + 1) ≤
      5 * (countFalse [true, true, false, false] + 1) ∧
    29 ≤ 0 + cooldown ∧
    (⟨"k1", some [1]⟩ : Event).marshal = some [1] ∧
    (runCalls (initBreaker 0) 0 ([true, true, false, false] ++ [false])).state = .opened ∧
    (publish (runCalls (initBreaker 0) 0 ([true, true, false, false] ++ [false])) 29
        "banking.transactions.initiated" ⟨"k1", some [1]⟩ true).error =
      some (.publishFailed "banking.transactions.initiated" .circuitOpen) := by
  have h := C1_trip_on_final_failure_then_fail_fast 0 29 true
    [true, true, false, false] "banking.transactions.initiated" ⟨"k1", some [1]⟩ [1]
    (by decide) (by decide) (by decide) rfl
  exact ⟨by decide, by decide, by decide, rfl, h.1, h.2.2.2.1⟩

/-! ## Claim C3 -/

/-- C3 counterexample: a breaker opened by three failures at time 0 lets
the next call through once the cooldown has elapsed (time 31) and the call
succeeds, but the state after that single success is HalfOpen, not Closed:
with the configured probe quota MaxRequests = 3, closing requires three
consecutive probe successes.  This refutes the claim as stated. -/
theorem C3_single_probe_success_not_closed :
    bOpen3.state = .opened ∧
    (execute bOpen3 31 true).2 = .sentOk ∧
    (execute bOpen3 31 true).1.state = .halfOpen ∧
    (execute bOpen3 31 true).1.state ≠ .closed := by
  decide

/-- C3 (amended): after the cooldown elapses following an Open state, the
next breaker-gated call is allowed through (the breaker moves to HalfOpen
and the transport is invoked); if a probe call fails, the state returns to
Open with the cooldown timer reset; a single probe success leaves the
breaker HalfOpen, and only MaxRequests = 3 consecutive probe successes
return the state to Closed with the counters reset. -/
theorem C3_halfopen_probe_behaviour (b : Breaker) (t : Nat)
    (hop : b.state = .opened) (hexp : b.expiry < t) :
    (execute b t true).2 = .sentOk ∧
    (execute b t false).2 = .sentFail ∧
    (execute b t true).1 = ⟨.halfOpen, ⟨1, 1, 0, 1, 0⟩, 0⟩ ∧
    (execute b t false).1 = ⟨.opened, Counts.clear, t + cooldown⟩ ∧
    runCalls b t [true, true, true] = ⟨.closed, Counts.clear, t + interval⟩ := by
  obtain ⟨st, c, e⟩ := b
  simp only at hop hexp
  subst hop
  refine ⟨?_, ?_, ?_, ?_, ?_⟩ <;>
    simp [execute, currentState, setState, expiryFor, onSuccessB, onFailureB,
      Counts.onRequest, Counts.onSuccess, Counts.onFailure, Counts.clear,
      maxRequests, runCalls, hexp]

/-- C3 witness: the breaker opened at time 0 probes at time 31. -/
theorem C3_halfopen_probe_behaviour_witness :
    bOpen3.state = .opened ∧ bOpen3.expiry < 31 ∧
    (execute bOpen3 31 true).1 = ⟨.halfOpen, ⟨1, 1, 0, 1, 0⟩, 0⟩ ∧
    (execute bOpen3 31 false).1 = ⟨.opened, Counts.clear, 31 + cooldown⟩ ∧
    runCalls bOpen3 31 [true, true, true] = ⟨.closed, Counts.clear, 31 + interval⟩ := by
  have h := C3_halfopen_probe_behaviour bOpen3 31 (by decide) (by decide)
  exact ⟨by decide, by decide, h.2.2.1, h.2.2.2.1, h.2.2.2.2⟩

/-! ## Claim C5 -/

/-- C5: for every event whose body cannot be serialized, Publish returns
the serialization error immediately: the breaker is returned untouched,
the transport is not invoked, nothing is marked sent, and the result does
not depend on what the transport would have answered (so nothing is
retried). -/
theorem C5_serialization_error_short_circuit
    (b : Breaker) (now : Nat) (topic : String) (ev : Event) (s : Bool)
    (h : ev.marshal = none) :
    publish b now topic ev s = ⟨b, some .marshalErr, false, []⟩ := by
  simp [publish, h]

/-- C5 witness: the non-serializable sample event at a fresh breaker. -/
theorem C5_serialization_error_short_circuit_witness :
    evBad.marshal = none ∧
    publish (initBreaker 0) 0 "banking.users.events" evBad true =
      ⟨initBreaker 0, some .marshalErr, false, []⟩ :=
  ⟨rfl, C5_serialization_error_short_circuit (initBreaker 0) 0
    "banking.users.events" evBad true rfl⟩

/-! ## Claim C6 -/

/-- C6 counterexample: in the half-open state with two successful probes
recorded, a successful Publish returns no error but moves the breaker
state from HalfOpen to Closed and clears the counters, so a successful
publish is not always "unaffected beyond incrementing its success
counter".  This refutes that conjunct of the claim as stated. -/
theorem C6_success_can_close_halfopen_breaker :
    bProbe2.state = .halfOpen ∧
    bProbe2.counts.totalSuccesses = 2 ∧
    (publish bProbe2 31 "banking.users.events" evGood true).error = none ∧
    (publish bProbe2 31 "banking.users.events" evGood true).breaker.state = .closed ∧
    (publish bProbe2 31 "banking.users.events" evGood true).breaker.counts.totalSuccesses
      = 0 := by
  decide

/-- C6 (amended): for a serializable event, Publish returns no error if
and only if the breaker-gated send succeeds; on breaker rejection or
transport failure it returns the wrapped error naming the topic and the
underlying cause; the resulting breaker is exactly the gated call's
breaker; and a successful publish from the Closed state within a live
window leaves the state Closed and merely records the request and the
success (resetting the consecutive-failure streak) — while a success in
the HalfOpen state may instead close the breaker and reset the counters. -/
theorem C6_publish_error_characterisation
    (b : Breaker) (now : Nat) (topic : String) (ev : Event) (pl : List Nat) (s : Bool)
    (hm : ev.marshal = some pl) :
    ((publish b now topic ev s).error = none ↔ (execute b now s).2 = .sentOk) ∧
    ((execute b now s).2 = .rejectedOpen →
      (publish b now topic ev s).error = some (.publishFailed topic .circuitOpen)) ∧
    ((execute b now s).2 = .rejectedTooMany →
      (publish b now topic ev s).error = some (.publishFailed topic .tooManyRequests)) ∧
    ((execute b now s).2 = .sentFail →
      (publish b now topic ev s).error = some (.publishFailed topic .transportErr)) ∧
    ((publish b now topic ev s).breaker = (execute b now s).1) ∧
    (b.state = .closed → ¬ (b.expiry ≠ 0 ∧ b.expiry < now) → s = true →
      (publish b now topic ev s).breaker =
        ⟨.closed, ⟨b.counts.requests + 1, b.counts.totalSuccesses + 1,
          b.counts.totalFailures, b.counts.consecutiveSuccesses + 1, 0⟩, b.expiry⟩) := by
  rcases hE : execute b now s with ⟨b2, res⟩
  refine ⟨?_, ?_, ?_, ?_, ?_, ?_⟩
  · cases res <;> simp [publish, hm, hE]
  · intro h; simp at h; subst h; simp [publish, hm, hE]
  · intro h; simp at h; subst h; simp [publish, hm, hE]
  · intro h; simp at h; subst h; simp [publish, hm, hE]
  · cases res <;> simp [publish, hm, hE]
  · intro hcl hlive hs
    subst hs
    obtain ⟨st, c, e⟩ := b
    have hst : st = .closed := hcl
    subst hst
    simp [publish, hm, execute_closed_ok c e now hlive,
      Counts.onRequest, Counts.onSuccess]

/-- C6 witness: a successful publish at a fresh closed breaker returns no
error and records exactly one request and one success. -/
theorem C6_publish_error_characterisation_witness :
    evGood.marshal = some [123] ∧
    ((publish (initBreaker 0) 0 "banking.users.events" evGood true).error = none ↔
      (execute (initBreaker 0) 0 true).2 = .sentOk) ∧
    (publish (initBreaker 0) 0 "banking.users.events" evGood true).breaker =
      ⟨.closed, ⟨1, 1, 0, 1, 0⟩, 10⟩ := by
  have h := C6_publish_error_characterisation (initBreaker 0) 0
    "banking.users.events" evGood [123] true rfl
  exact ⟨rfl, h.1, by simpa using h.2.2.2.2.2 rfl (by decide) rfl⟩

/-! ## Batch lemmas and claim C7 -/

/-- Publish sends nothing when it fails. -/
theorem publish_fail_empty_sent (b : Breaker) (now : Nat) (topic : String)
    (ev : Event) (s : Bool) (h : (publish b now topic ev s).error ≠ none) :
    (publish b now topic ev s).sentKeys = [] := by
  cases hm : ev.marshal with
  | none => simp [publish, hm]
  | some pl =>
      rcases hE : execute b now s with ⟨b2, res⟩
      cases res <;> simp_all [publish, hm, hE]

/-- Publish sends exactly the event's key when it succeeds. -/
theorem publish_ok_sent (b : Breaker) (now : Nat) (topic : String)
    (ev : Event) (s : Bool) (h : (publish b now topic ev s).error = none) :
    (publish b now topic ev s).sentKeys = [ev.key] := by
  cases hm : ev.marshal with
  | none => simp [publish, hm] at h
  | some pl =>
      rcases hE : execute b now s with ⟨b2, res⟩
      cases res <;> simp_all [publish, hm, hE]

/-- Batch step when the head publish fails: the batch stops there and
returns the head's outcome, untouched. -/
theorem publishBatch_cons_fail (b : Breaker) (now : Nat) (topic : String)
    (ev : Event) (s : Bool) (rest : List (Event × Bool))
    (h : (publish b now topic ev s).error ≠ none) :
    publishBatch b now topic ((ev, s) :: rest) =
      ⟨(publish b now topic ev s).breaker, (publish b now topic ev s).error,
        (publish b now topic ev s).transportInvoked,
        (publish b now topic ev s).sentKeys⟩ := by
  rcases hp : publish b now topic ev s with ⟨b2, err, ti, sk⟩
  cases err with
  | none => rw [hp] at h; simp at h
  | some e => simp [publishBatch, hp]

/-- Batch step when the head publish succeeds: the tail batch runs from
the head's breaker and the head's sent key is kept. -/
theorem publishBatch_cons_ok (b : Breaker) (now : Nat) (topic : String)
    (ev : Event) (s : Bool) (rest : List (Event × Bool))
    (h : (publish b now topic ev s).error = none) :
    publishBatch b now topic ((ev, s) :: rest) =
      ⟨(publishBatch (publish b now topic ev s).breaker now topic rest).breaker,
        (publishBatch (publish b now topic ev s).breaker now topic rest).error,
        (publish b now topic ev s).transportInvoked ||
          (publishBatch (publish b now topic ev s).breaker now topic rest).transportInvoked,
        (publish b now topic ev s).sentKeys ++
          (publishBatch (publish b now topic ev s).breaker now topic rest).sentKeys⟩ := by
  rcases hp : publish b now topic ev s with ⟨b2, err, ti, sk⟩
  cases err with
  | none => simp [publishBatch, hp]
  | some e => rw [hp] at h; simp at h

/-- An error-free batch sent exactly the events' keys, in list order. -/
theorem publishBatch_ok_sent (now : Nat) (topic : String) :
    ∀ (l : List (Event × Bool)) (b : Breaker),
      (publishBatch b now topic l).error = none →
      (publishBatch b now topic l).sentKeys = l.map (fun p => p.1.key) := by
  intro l
  induction l with
  | nil => intro b _; simp [publishBatch]
  | cons p rest ih =>
      intro b h
      obtain ⟨ev, s⟩ := p
      by_cases hp : (publish b now topic ev s).error = none
      · rw [publishBatch_cons_ok b now topic ev s rest hp] at h ⊢
        simp only at h ⊢
        rw [publish_ok_sent b now topic ev s hp, ih _ h]
        simp
      · rw [publishBatch_cons_fail b now topic ev s rest hp] at h
        simp only at h
        exact absurd h hp

/-- Appending to an error-free batch continues it from the final breaker,
keeping everything already sent. -/
theorem publishBatch_append_ok (now : Nat) (topic : String) :
    ∀ (l1 l2 : List (Event × Bool)) (b : Breaker),
      (publishBatch b now topic l1).error = none →
      (publishBatch b now topic (l1 ++ l2)).error =
        (publishBatch (publishBatch b now topic l1).breaker now topic l2).error ∧
      (publishBatch b now topic (l1 ++ l2)).sentKeys =
        (publishBatch b now topic l1).sentKeys ++
          (publishBatch (publishBatch b now topic l1).breaker now topic l2).sentKeys ∧
      (publishBatch b now topic (l1 ++ l2)).breaker =
        (publishBatch (publishBatch b now topic l1).breaker now topic l2).breaker := by
  intro l1
  induction l1 with
  | nil => intro l2 b _; simp [publishBatch]
  | cons p rest ih =>
      intro l2 b h
      obtain ⟨ev, s⟩ := p
      by_cases hp : (publish b now topic ev s).error = none
      · rw [publishBatch_cons_ok b now topic ev s rest hp] at h
        simp only at h
        have := ih l2 (publish b now topic ev s).breaker h
        rw [List.cons_append, publishBatch_cons_ok b now topic ev s (rest ++ l2) hp,
          publishBatch_cons_ok b now topic ev s rest hp]
        simp only
        refine ⟨this.1, ?_, this.2.2⟩
        rw [this.2.1, List.append_assoc]
      · rw [publishBatch_cons_fail b now topic ev s rest hp] at h
        simp only at h
        exact absurd h hp

/-- C7: PublishBatch publishes sequentially in list order and stops at the
first failing publish, returning that failure; the events published before
the failure keep their sent messages, in order, and nothing after the
failing event is attempted; an error-free batch has sent every event's
message in order. -/
theorem C7_batch_stops_at_first_failure
    (b : Breaker) (now : Nat) (topic : String)
    (evs1 : List (Event × Bool)) (ev : Event) (s : Bool) (evs2 : List (Event × Bool))
    (h1 : (publishBatch b now topic evs1).error = none)
    (h2 : (publish (publishBatch b now topic evs1).breaker now topic ev s).error ≠ none) :
    (publishBatch b now topic (evs1 ++ (ev, s) :: evs2)).error =
      (publish (publishBatch b now topic evs1).breaker now topic ev s).error ∧
    (publishBatch b now topic (evs1 ++ (ev, s) :: evs2)).sentKeys =
      evs1.map (fun p => p.1.key) ∧
    (publishBatch b now topic (evs1 ++ (ev, s) :: evs2)).breaker =
      (publish (publishBatch b now topic evs1).breaker now topic ev s).breaker ∧
    (publishBatch b now topic evs1).error = none ∧
    (publishBatch b now topic evs1).sentKeys = evs1.map (fun p => p.1.key) := by
  have happ := publishBatch_append_ok now topic evs1 ((ev, s) :: evs2) b h1
  have hfail := publishBatch_cons_fail (publishBatch b now topic evs1).breaker now topic
    ev s evs2 h2
  have hsent1 := publishBatch_ok_sent now topic evs1 b h1
  have hsent0 := publish_fail_empty_sent (publishBatch b now topic evs1).breaker now topic
    ev s h2
  refine ⟨?_, ?_, ?_, h1, hsent1⟩
  · rw [happ.1, hfail]
  · rw [happ.2.1, hfail]
    simp only
    rw [hsent0, hsent1, List.append_nil]
  · rw [happ.2.2, hfail]

/-- C7 witness: a batch of a good event, a non-serializable event and a
trailing good event stops at the failing second event, returns the
serialization error, and keeps the first event's send. -/
theorem C7_batch_stops_at_first_failure_witness :
    (publishBatch (initBreaker 0) 0 "banking.users.events" [(evGood, true)]).error
      = none ∧
    (publish (publishBatch (initBreaker 0) 0 "banking.users.events"
        [(evGood, true)]).breaker 0 "banking.users.events" evBad true).error ≠ none ∧
    (publishBatch (initBreaker 0) 0 "banking.users.events"
        ([(evGood, true)] ++ (evBad, true) :: [(evGood2, true)])).error
      = some .marshalErr ∧
    (publishBatch (initBreaker 0) 0 "banking.users.events"
        ([(evGood, true)] ++ (evBad, true) :: [(evGood2, true)])).sentKeys
      = [evGood.key] := by
  have h := C7_batch_stops_at_first_failure (initBreaker 0) 0 "banking.users.events"
    [(evGood, true)] evBad true [(evGood2, true)] (by decide) (by decide)
  refine ⟨by decide, by decide, ?_, ?_⟩
  · rw [h.1]; decide
  · rw [h.2.1]; decide

/-! ## Claim C2 -/

/-- Recording a position for a partition with no recorded position yet
makes that position the committed one. -/
theorem committedOffset_set_new (c : Committed) (tp : String × Int) (off : Int)
    (h : committedOffset c tp = none) :
    committedOffset (setCommitted c tp off) tp = some off := by
  induction c with
  | nil => simp [setCommitted, committedOffset]
  | cons p rest ih =>
      obtain ⟨tp2, o⟩ := p
      by_cases he : tp2 = tp
      · subst he; simp [committedOffset] at h
      · simp only [setCommitted, if_neg he]
        simp only [committedOffset, if_neg he] at h ⊢
        exact ih h

/-- C2: a handler error on a message leaves the committed positions of
every partition untouched, appends a log entry carrying the message's
topic, partition and offset, lets the loop continue with the next message,
and is never returned to the caller (the claim run still returns nil); a
handler success marks the message, recording offset + 1 as the committed
position (installing it outright on a partition with no position yet). -/
theorem C2_handler_failure_no_offset_advance
    (handler : Message → Bool) (m m2 : Message) (rest : List Message) (s : ClaimState)
    (hf : handler m = false) (hs2 : handler m2 = true) :
    (consumeClaimStep handler m s).committed = s.committed ∧
    (consumeClaimStep handler m s).logs = s.logs ++ [m] ∧
    consumeClaim handler (m :: rest) none s =
      (consumeClaimLoop handler rest (consumeClaimStep handler m s), none) ∧
    (consumeClaimStep handler m2 s).committed = markMessage s.committed m2 ∧
    (committedOffset s.committed (m2.topic, m2.partition) = none →
      committedOffset (consumeClaimStep handler m2 s).committed (m2.topic, m2.partition) =
        some (m2.offset + 1)) := by
  refine ⟨?_, ?_, ?_, ?_, ?_⟩
  · simp [consumeClaimStep, hf]
  · simp [consumeClaimStep, hf]
  · simp [consumeClaim, consumeClaimLoop]
  · simp [consumeClaimStep, hs2]
  · intro h
    simp only [consumeClaimStep, hs2, if_true, markMessage]
    exact committedOffset_set_new _ _ _ h

/-- C2 witness: the sample handler fails on the offset-5 message and
succeeds on the offset-1 message, starting from the empty claim state. -/
theorem C2_handler_failure_no_offset_advance_witness :
    hdl0 msgF = false ∧ hdl0 msgS = true ∧
    (consumeClaimStep hdl0 msgF cs0).committed = cs0.committed ∧
    (consumeClaimStep hdl0 msgF cs0).logs = cs0.logs ++ [msgF] ∧
    consumeClaim hdl0 (msgF :: []) none cs0 =
      (consumeClaimLoop hdl0 [] (consumeClaimStep hdl0 msgF cs0), none) ∧
    committedOffset (consumeClaimStep hdl0 msgS cs0).committed
      (msgS.topic, msgS.partition) = some (msgS.offset + 1) := by
  have h := C2_handler_failure_no_offset_advance hdl0 msgF msgS [] cs0
    (by decide) (by decide)
  exact ⟨by decide, by decide, h.1, h.2.1, h.2.2.1, h.2.2.2.2 rfl⟩

/-! ## Claim C10 -/

/-- C10: ConsumeClaim returns nil for every handler, message stream and
exit mode (closed stream or cancelled session), including a handler that
fails on every message; the loop never halts on a handler error, logging
every rejected message of the whole stream in order instead. -/
theorem C10_consume_claim_returns_nil
    (handler : Message → Bool) (msgs : List Message) (cancelAfter : Option Nat)
    (s : ClaimState) :
    (consumeClaim handler msgs cancelAfter s).2 = none ∧
    (consumeClaimLoop handler msgs s).logs =
      s.logs ++ msgs.filter (fun m => !handler m) := by
  constructor
  · cases cancelAfter <;> rfl
  · induction msgs generalizing s with
    | nil => simp [consumeClaimLoop]
    | cons m rest ih =>
        simp only [consumeClaimLoop]
        rw [ih]
        by_cases hm : handler m = true
        · simp [consumeClaimStep, hm, List.filter_cons]
        · have hm2 : handler m = false := by simpa using hm
          simp [consumeClaimStep, hm2, List.filter_cons]

/-! ## Claim C4 -/

/-- C4 counterexample: over a trace whose first Consume call fails to
join, the supervising loop logs the error and retries, but Start never
returns that error: it stays blocked on the readiness channel that the
loop has already replaced — even when the second attempt joins
successfully.  The initial group-join error is never the return value of
Start, refuting the claim as stated. -/
theorem C4_initial_join_error_not_returned :
    outcomeErr (.joinFailure "join failed") = some "join failed" ∧
    startReturnValue [.joinFailure "join failed"] = none ∧
    startReturnValue [.joinFailure "join failed", .sessionEnd none] = none ∧
    (none : Option (Option String)) ≠ some (some "join failed") ∧
    (superviseLoop [.joinFailure "join failed", .sessionEnd none]).1 =
      ["join failed"] := by
  exact ⟨rfl, rfl, rfl, by decide, rfl⟩

/-- C4 (amended): Start never returns a group-join error: over every
trace it either stays blocked or returns nil, and it does return nil
whenever the first Consume call establishes a session; the supervising
loop consumes every Consume outcome — rejoining after each membership
loss and after each failed join — and logs exactly the errors those
outcomes carried. -/
theorem C4_join_errors_logged_not_surfaced (outcomes : List ConsumeOutcome)
    (err : Option String) (rest : List ConsumeOutcome) :
    (startReturnValue outcomes = none ∨ startReturnValue outcomes = some none) ∧
    startReturnValue (.sessionEnd err :: rest) = some none ∧
    (superviseLoop outcomes).2 = outcomes.length ∧
    (superviseLoop outcomes).1 = outcomes.filterMap outcomeErr := by
  refine ⟨?_, rfl, ?_, ?_⟩
  · match outcomes with
    | [] => exact Or.inl rfl
    | .joinFailure e :: rest2 => exact Or.inl rfl
    | .sessionEnd e :: rest2 => exact Or.inr rfl
  · induction outcomes with
    | nil => rfl
    | cons o rest2 ih => simp [superviseLoop, ih]
  · induction outcomes with
    | nil => rfl
    | cons o rest2 ih =>
        cases ho : outcomeErr o <;>
          simp [superviseLoop, ih, List.filterMap_cons, ho]

/-! ## Claim C9 -/

/-- C9: for every ProducerConfig, the sarama configuration built by
NewProducer enables idempotent delivery and caps in-flight unacknowledged
requests per connection at exactly 1, so idempotency always comes with a
single in-flight request. -/
theorem C9_idempotent_single_inflight (cfg : ProducerConfig) :
    (newProducerConfig cfg).idempotent = true ∧
    (newProducerConfig cfg).maxOpenRequests = 1 :=
  ⟨rfl, rfl⟩

end BankingKafka
